import Mathlib

/-!
Verification development for the `lgame` minesweeper leaderboard worker
(`src/optimized.js`).  The definitions below are a shallow embedding of the
worker's pure decision logic:

* JavaScript numbers that are used as integers (timestamps, counters, stored
  times) are modelled as `Int`/`Nat`; request times, which may be fractional,
  are modelled as `ℚ` (the claims under scrutiny do not depend on binary
  floating-point rounding).
* The 32-bit wrap-around of the rolling hash (`hash & hash`, `hash << 5`)
  is modelled explicitly with `% 2^32`.
* Key/value store reads and writes become explicit arguments and result
  fields; the process-local cache is modelled by the set of keys it holds.
* `parseInt` NaN results become `Option.none`, and the JS comparison
  semantics `NaN > x = false` is reproduced at the single place it matters
  (token expiry).
-/

namespace LGame

/-- Wrap an integer into `[0, 2^32)` (the unsigned 32-bit residue). -/
def wrap32 (n : Int) : Int :=
  ((n % 4294967296) + 4294967296) % 4294967296

/-- JavaScript `ToInt32`: the signed 32-bit value produced by `hash & hash`
and `<<` in `generateTokenSignature` / `generateClientFingerprint`. -/
def toInt32 (n : Int) : Int :=
  let m := wrap32 n
  if m < 2147483648 then m else m - 4294967296

/-- One step of the rolling hash `hash = ((hash << 5) - hash) + char; hash = hash & hash`
from `generateTokenSignature` (src/optimized.js lines 290-295). -/
def hashStep (h : Int) (c : Nat) : Int :=
  toInt32 (toInt32 (h * 32) - h + (c : Int))

/-- The rolling 32-bit hash of a string (char codes folded with `hashStep`,
initial value 0), as used by `generateTokenSignature`. -/
def jsHash (s : String) : Int :=
  s.toList.foldl (fun h c => hashStep h c.toNat) 0

/-- Digit character for base-36 output, as produced by `Number.prototype.toString(36)`:
`0`-`9` then `a`-`z`. -/
def base36DigitChar (n : Nat) : Char :=
  if n < 10 then Char.ofNat (48 + n) else Char.ofNat (87 + n)

/-- Accumulating worker for `toBase36`; the first argument is structural
fuel, always supplied large enough (`n + 1 > log36 n`) that it never runs
out. -/
def toBase36Go : Nat → Nat → List Char → List Char
  | 0, _, acc => acc
  | fuel + 1, n, acc =>
    if n = 0 then acc
    else toBase36Go fuel (n / 36) (base36DigitChar (n % 36) :: acc)

/-- JavaScript `n.toString(36)` for a natural number. -/
def toBase36 (n : Nat) : String :=
  if n = 0 then "0" else String.mk (toBase36Go (n + 1) n [])

/-- Model of `generateTokenSignature(timestamp, adminKey)`
(src/optimized.js lines 287-297): rolling hash of `timestamp + ":" + adminKey`,
absolute value, base 36. -/
def generateTokenSignature (timestamp adminKey : String) : String :=
  toBase36 (jsHash (timestamp ++ ":" ++ adminKey)).natAbs

/-- Model of `secureCompare(a, b)` (src/optimized.js lines 223-238):
length check, then OR of XOR over all char codes, compared to zero. -/
def secureCompare (a b : String) : Bool :=
  if a.length ≠ b.length then false
  else ((a.toList.zip b.toList).foldl (fun r p => r ||| (p.1.toNat ^^^ p.2.toNat)) 0) == 0

/-- Decimal digit value, `none` for a non-digit. -/
def digitVal (c : Char) : Option Nat :=
  if c.isDigit then some (c.toNat - 48) else none

/-- Hexadecimal digit value, `none` for a non-hex-digit. -/
def hexVal (c : Char) : Option Nat :=
  if c.isDigit then some (c.toNat - 48)
  else if 'a' ≤ c ∧ c ≤ 'f' then some (c.toNat - 87)
  else if 'A' ≤ c ∧ c ≤ 'F' then some (c.toNat - 55)
  else none

/-- Parse the longest leading run of digits (per the digit-value function
`f`, in base `base`); `none` when there is no leading digit, matching
`parseInt` returning `NaN`. -/
def parseLeading (f : Char → Option Nat) (base : Nat) (cs : List Char) : Option Nat :=
  let ds := cs.takeWhile (fun c => (f c).isSome)
  if ds.isEmpty then none
  else some (ds.foldl (fun a c => a * base + ((f c).getD 0)) 0)

/-- Unsigned part of JavaScript `parseInt` with no radix argument:
a `0x`/`0X` prefix selects base 16, otherwise base 10. -/
def jsParseIntCore (cs : List Char) : Option Nat :=
  match cs with
  | '0' :: 'x' :: rest => parseLeading hexVal 16 rest
  | '0' :: 'X' :: rest => parseLeading hexVal 16 rest
  | _ => parseLeading digitVal 10 cs

/-- Model of JavaScript `parseInt(s)`: skip leading whitespace, optional
sign, then the longest digit prefix; `none` models `NaN`. -/
def jsParseInt (s : String) : Option Int :=
  let cs := s.toList.dropWhile Char.isWhitespace
  match cs with
  | '-' :: rest => (jsParseIntCore rest).map (fun n => -(n : Int))
  | '+' :: rest => (jsParseIntCore rest).map (fun n => (n : Int))
  | _ => (jsParseIntCore cs).map (fun n => (n : Int))

/-- Split a list of characters at every occurrence of `sep`
(worker for `jsSplit`). -/
def splitOnCharAux (sep : Char) : List Char → List Char → List (List Char)
  | [], acc => [acc.reverse]
  | c :: cs, acc =>
    if c = sep then acc.reverse :: splitOnCharAux sep cs []
    else splitOnCharAux sep cs (c :: acc)

/-- Model of JavaScript `s.split(sep)` for a single-character separator. -/
def jsSplit (s : String) (sep : Char) : List String :=
  (splitOnCharAux sep s.toList []).map String.mk

/-- Octal digit value, `none` for a non-digit. -/
def octVal (c : Char) : Option Nat :=
  if '0' ≤ c ∧ c ≤ '7' then some (c.toNat - 48) else none

/-- Binary digit value, `none` for a non-digit. -/
def binVal (c : Char) : Option Nat :=
  if c = '0' ∨ c = '1' then some (c.toNat - 48) else none

/-- Parse a digit string that must consist entirely of digits (per the
digit-value function `f`, in base `base`); `none` when empty or when any
character is not a digit.  Unlike `parseLeading` (JavaScript `parseInt`),
`Number()` coercion requires the whole string to match. -/
def parseAllDigits (f : Char → Option Nat) (base : Nat) (cs : List Char) : Option Nat :=
  if cs.isEmpty then none
  else if cs.all (fun c => (f c).isSome) then
    some (cs.foldl (fun a c => a * base + ((f c).getD 0)) 0)
  else none

/-- Signed all-digit integer (exponent part of a numeric literal). -/
def parseSignedAllDigits (cs : List Char) : Option Int :=
  match cs with
  | '-' :: rest => (parseAllDigits digitVal 10 rest).map (fun n => -(n : Int))
  | '+' :: rest => (parseAllDigits digitVal 10 rest).map (fun n => (n : Int))
  | _ => (parseAllDigits digitVal 10 cs).map (fun n => (n : Int))

/-- Unsigned decimal mantissa of a JavaScript numeric literal: digits, an
optional decimal point, and digits on at least one side of it. -/
def parseDecMantissa (cs : List Char) : Option ℚ :=
  match splitOnCharAux '.' cs [] with
  | [ipart] => (parseAllDigits digitVal 10 ipart).map (fun n => (n : ℚ))
  | [ipart, fpart] =>
    if ipart.isEmpty ∧ fpart.isEmpty then none
    else if fpart.isEmpty then (parseAllDigits digitVal 10 ipart).map (fun n => (n : ℚ))
    else if ipart.isEmpty then
      (parseAllDigits digitVal 10 fpart).map
        (fun f => (f : ℚ) / (10 : ℚ) ^ fpart.length)
    else
      match parseAllDigits digitVal 10 ipart, parseAllDigits digitVal 10 fpart with
      | some i, some f => some ((i : ℚ) + (f : ℚ) / (10 : ℚ) ^ fpart.length)
      | _, _ => none
  | _ => none

/-- Unsigned decimal literal with optional `e`/`E` exponent. -/
def parseDecLiteral (cs : List Char) : Option ℚ :=
  match cs.span (fun c => !(c == 'e' || c == 'E')) with
  | (mant, []) => parseDecMantissa mant
  | (mant, _ :: expPart) =>
    match parseDecMantissa mant, parseSignedAllDigits expPart with
    | some m, some e => some (m * (10 : ℚ) ^ e)
    | _, _ => none

/-- Model of JavaScript `Number(s)` for a string: trim whitespace, empty
string is 0, `0x`/`0o`/`0b` integer literals (no sign), or a signed decimal
literal with optional fraction and exponent; the whole string must match,
else `NaN` (`none`).  The non-finite literals (`Infinity`, `-Infinity`) are
also mapped to `none`: the only consumer that could distinguish them,
`validateTime`, rejects NaN and non-finite values alike. -/
def jsToNumber (s : String) : Option ℚ :=
  let cs := ((s.toList.dropWhile Char.isWhitespace).reverse.dropWhile
    Char.isWhitespace).reverse
  match cs with
  | [] => some 0
  | '0' :: 'x' :: rest => (parseAllDigits hexVal 16 rest).map (fun n => (n : ℚ))
  | '0' :: 'X' :: rest => (parseAllDigits hexVal 16 rest).map (fun n => (n : ℚ))
  | '0' :: 'o' :: rest => (parseAllDigits octVal 8 rest).map (fun n => (n : ℚ))
  | '0' :: 'O' :: rest => (parseAllDigits octVal 8 rest).map (fun n => (n : ℚ))
  | '0' :: 'b' :: rest => (parseAllDigits binVal 2 rest).map (fun n => (n : ℚ))
  | '0' :: 'B' :: rest => (parseAllDigits binVal 2 rest).map (fun n => (n : ℚ))
  | '-' :: rest => (parseDecLiteral rest).map (fun q => -q)
  | '+' :: rest => parseDecLiteral rest
  | _ => parseDecLiteral cs

/-- Result of `validateAdminToken`: either valid, or invalid with the
machine-readable reason string from the source. -/
inductive TokenResult where
  | valid
  | invalid (reason : String)
deriving DecidableEq, Repr

/-- Expiry condition of `validateAdminToken` (src/optimized.js lines
256-264): `tokenAge > 300000 || tokenAge < 0` with
`tokenAge = now - parseInt(timestampStr)`.  When `parseInt` yields `NaN`
both comparisons are false in JavaScript, so the condition does not hold. -/
def tokenExpired (timestampStr : String) (nowMs : Int) : Bool :=
  match jsParseInt timestampStr with
  | some ts => decide (300000 < nowMs - ts) || decide (nowMs - ts < 0)
  | none => false

/-- Model of `validateAdminToken` (src/optimized.js lines 241-284), applied to
the base64-decoded token.  `alreadyUsed` stands for the durable
`security:used_token:*` marker lookup. -/
def validateAdminToken (decoded adminKey : String) (nowMs : Int) (alreadyUsed : Bool) :
    TokenResult :=
  match jsSplit decoded ':' with
  | [timestampStr, signature] =>
    if tokenExpired timestampStr nowMs then .invalid "token_expired"
    else if ¬ secureCompare signature (generateTokenSignature timestampStr adminKey) then
      .invalid "invalid_signature"
    else if alreadyUsed then .invalid "token_already_used"
    else .valid
  | _ => .invalid "invalid_token_structure"

/-- Outcome of one `checkRateLimit` call: the decision, the reported
remaining quota, whether a security event was recorded, and the three
counter values as left in the store. -/
structure RateLimitResult where
  allowed : Bool
  remaining : Int
  securityEventRecorded : Bool
  ipAfter : Nat
  fingerprintAfter : Nat
  globalAfter : Nat
deriving DecidableEq, Repr

/-- Try-block of `checkRateLimit` (src/optimized.js lines 362-411) given
the three stored counter values for the current minute window, in the
source's check order (IP limit 20, fingerprint limit 15, global limit
1000).  When a scope is at or above its limit the source calls
`logSecurityEvent` (line 389) before returning — but that function is
defined nowhere (it was removed, see the line-917 comment
"安全事件记录功能已移除"), so the call throws a `ReferenceError` and the
branch never returns; this is modelled as `Except.error`.  When all scopes
are under their limits, all three counters are incremented and
`15 - fingerprintCount - 1` remaining is reported; no logging call is made
on that path.  `securityEventRecorded` is `false` in every reachable
outcome, since no recording code exists. -/
def checkRateLimitInner (ipCount fingerprintCount globalCount : Nat) :
    Except String RateLimitResult :=
  let checks : List (Nat × Nat) :=
    [(ipCount, 20), (fingerprintCount, 15), (globalCount, 1000)]
  match checks.find? (fun c => c.2 ≤ c.1) with
  | some _ => .error "ReferenceError: logSecurityEvent is not defined"
  | none =>
    .ok ⟨true, (15 : Int) - (fingerprintCount : Int) - 1, false,
      ipCount + 1, fingerprintCount + 1, globalCount + 1⟩

/-- Model of `checkRateLimit` as the caller sees it: the try-block wrapped
in `ErrorHandler.handleAsyncError` (src/optimized.js line 412), whose
fallback value is `{allowed: false, remaining: 0}`.  A thrown
`ReferenceError` from the over-limit branch is swallowed and the fallback
returned, with no security event recorded and no counter incremented
(the throw happens before the counter updates). -/
def checkRateLimit (ipCount fingerprintCount globalCount : Nat) : RateLimitResult :=
  match checkRateLimitInner ipCount fingerprintCount globalCount with
  | .ok r => r
  | .error _ => ⟨false, 0, false, ipCount, fingerprintCount, globalCount⟩

/-- Outcome of one `KVStorageManager.safeGet` call: the returned value,
whether the durable store was read, and the value written into the
process-local cache (if any). -/
structure SafeGetOutcome (α : Type) where
  result : α
  kvRead : Bool
  cacheWrite : Option α
deriving DecidableEq, Repr

/-- Cache-miss path of `safeGet` (src/optimized.js lines 150-160):
`result = data ? JSON.parse(data) : defaultValue` (the empty string is
falsy), and the cache is written when `useCache && data !== null`. -/
def safeGetMiss {α : Type} (parse : String → α) (defaultValue : α) (useCache : Bool)
    (kvData : Option String) : SafeGetOutcome α :=
  let result :=
    match kvData with
    | some s => if s = "" then defaultValue else parse s
    | none => defaultValue
  ⟨result, true, if useCache && kvData.isSome then some result else none⟩

/-- Model of `KVStorageManager.safeGet` (src/optimized.js lines 139-162).
`cached` is what the local cache returns for the derived `kv:`-prefixed key
(`none` both for a miss and for an expired entry), `kvData` is what the
durable store holds for the key (`none` for absent). -/
def safeGet {α : Type} (parse : String → α) (defaultValue : α) (useCache : Bool)
    (cached : Option α) (kvData : Option String) : SafeGetOutcome α :=
  if useCache then
    match cached with
    | some v => ⟨v, false, none⟩
    | none => safeGetMiss parse defaultValue useCache kvData
  else safeGetMiss parse defaultValue useCache kvData

/-- The three difficulty tiers. -/
inductive Difficulty where
  | beginner
  | intermediate
  | expert
deriving DecidableEq, Repr

/-- The tier name as it appears in URLS and storage keys. -/
def difficultyKey : Difficulty → String
  | .beginner => "beginner"
  | .intermediate => "intermediate"
  | .expert => "expert"

/-- Validation result `{valid, reason, severity}` as returned by the
validator functions (reason/severity are `""` on the valid path; the
Chinese reason strings of the source are replaced by short ASCII codes,
which no claim depends on, except the admin-token reasons kept verbatim). -/
structure VResult where
  valid : Bool
  reason : String
  severity : String
deriving DecidableEq, Repr

/-- The claimed game-session payload (src/optimized.js line 422).  All
timestamps are milliseconds since epoch (`new Date(x).getTime()`). -/
structure GameData where
  difficulty : Difficulty
  time : ℚ
  moves : Int
  gameId : String
  timestamp : Int
  boardWidth : Int
  boardHeight : Int
  mineCount : Int
  gameEndTime : Int
  firstClickTime : Int
  gameState : String
deriving DecidableEq, Repr

/-- Canonical board table (src/optimized.js lines 457-461):
width, height, mines per difficulty. -/
def expectedBoard : Difficulty → Int × Int × Int
  | .beginner => (9, 9, 10)
  | .intermediate => (16, 16, 40)
  | .expert => (30, 16, 99)

/-- Per-difficulty minimum move count (src/optimized.js lines 469-473). -/
def minMoves : Difficulty → Int
  | .beginner => 8
  | .intermediate => 15
  | .expert => 25

/-- Model of `validateGameSession` (src/optimized.js lines 416-496): the
fixed sequence of structural, temporal, board-consistency and move-count
checks, short-circuiting at the first failure.  The field-presence check of
line 425 is represented by the (only falsifiable) condition `gameId ≠ ""`. -/
def validateGameSession (gd : GameData) (nowMs : Int) : VResult :=
  if gd.gameId = "" then ⟨false, "missing_session_fields", "critical"⟩
  else if gd.gameState ≠ "won" then ⟨false, "game_state_not_won", "high"⟩
  else if 604800000 < nowMs - gd.timestamp then ⟨false, "session_expired", "medium"⟩
  else if 60 < |((gd.gameEndTime - gd.firstClickTime : Int) : ℚ) / 1000 - gd.time| then
    ⟨false, "duration_mismatch", "high"⟩
  else if gd.boardWidth ≠ (expectedBoard gd.difficulty).1 ∨
      gd.boardHeight ≠ (expectedBoard gd.difficulty).2.1 ∨
      gd.mineCount ≠ (expectedBoard gd.difficulty).2.2 then
    ⟨false, "board_mismatch", "critical"⟩
  else if gd.moves < minMoves gd.difficulty then ⟨false, "too_few_moves", "critical"⟩
  else if gd.boardWidth * gd.boardHeight * 2 < gd.moves then
    ⟨false, "too_many_moves", "medium"⟩
  else if gd.time / (gd.moves : ℚ) < 0.05 then ⟨false, "moves_too_fast", "critical"⟩
  else if 60 < gd.time / (gd.moves : ℚ) then ⟨false, "moves_too_slow", "low"⟩
  else ⟨true, "", "none"⟩

/-- Per-difficulty minimum accepted time in seconds
(src/optimized.js lines 512-516). -/
def minTimes : Difficulty → ℚ
  | .beginner => 1
  | .intermediate => 3
  | .expert => 5

/-- Per-difficulty maximum reasonable time in seconds
(src/optimized.js lines 518-522). -/
def maxReasonableTimes : Difficulty → ℚ
  | .beginner => 999
  | .intermediate => 1999
  | .expert => 2999

/-- Per-difficulty world-record reference time in seconds
(src/optimized.js lines 525-529). -/
def worldRecords : Difficulty → ℚ
  | .beginner => 0.49
  | .intermediate => 7.03
  | .expert => 31.133

/-- Score-magnitude checks of `validateScoreReasonableness`
(src/optimized.js lines 531-557), in source order: minimum, maximum,
world-record floor, then the suspicious perfect-score check
(`Number.isInteger(time) && time < worldRecord * 2`, modelled by
`time.den = 1`). -/
def scoreMagnitude (time : ℚ) (d : Difficulty) : VResult :=
  if time < minTimes d then ⟨false, "score_too_fast", "high"⟩
  else if maxReasonableTimes d < time then ⟨false, "score_out_of_range", "low"⟩
  else if time < worldRecords d then ⟨false, "faster_than_world_record", "critical"⟩
  else if time.den = 1 ∧ time < 2 * worldRecords d then
    ⟨false, "suspicious_perfect_score", "medium"⟩
  else ⟨true, "", "none"⟩

/-- Model of `validateScoreReasonableness(time, difficulty, gameData)`
(src/optimized.js lines 499-558): the session validation runs first when
game data is supplied, then the magnitude checks. -/
def validateScoreReasonableness (time : ℚ) (d : Difficulty) (gameData : Option GameData)
    (nowMs : Int) : VResult :=
  match gameData with
  | some gd =>
    let gv := validateGameSession gd nowMs
    if gv.valid then scoreMagnitude time d else ⟨false, gv.reason, "critical"⟩
  | none => scoreMagnitude time d

/-- Core of `DataValidator.validateTime` (src/optimized.js lines 48-62),
applied to `numTime = Number(time)` once the coercion produced a finite
number: the value must equal its floor (i.e. be an integer), be at least 1
and at most 9999. -/
def validateTimeCore (t : ℚ) : VResult :=
  if t ≠ ((t.floor : Int) : ℚ) ∨ t < 1 then ⟨false, "time_not_positive_integer", ""⟩
  else if 9999 < t then ⟨false, "time_above_9999", ""⟩
  else ⟨true, "", ""⟩

/-- A JavaScript `time` value as accepted by the `typeof` test of
`DataValidator.validateTime` (src/optimized.js line 44): a number or a
string.  Any other type is rejected there and is outside the model. -/
inductive JSTimeValue where
  | num (q : ℚ)
  | str (s : String)
deriving DecidableEq, Repr

/-- Model of `DataValidator.validateTime` (src/optimized.js lines 43-63)
on its full accepted domain: a number is checked directly, a string is
coerced with `Number()` first (`NaN`/non-finite rejected), and the integer
and range checks run on the coerced value. -/
def validateTime (v : JSTimeValue) : VResult :=
  match v with
  | .num q => validateTimeCore q
  | .str s =>
    match jsToNumber s with
    | some q => validateTimeCore q
    | none => ⟨false, "time_not_a_number", ""⟩

/-- JavaScript relational `a < b` where `a` is a string-typed value
(coerced with `Number()`) and `b` a number: false when the coercion gives
`NaN`. -/
def jsNumLT (a : Option ℚ) (b : ℚ) : Bool :=
  match a with
  | some x => decide (x < b)
  | none => false

/-- JavaScript relational `a > b` for a string-typed `a`, as `jsNumLT`. -/
def jsNumGT (a : Option ℚ) (b : ℚ) : Bool :=
  match a with
  | some x => decide (b < x)
  | none => false

/-- Score-magnitude checks (src/optimized.js lines 531-557) on the full
`time` domain.  A number-typed time takes the `scoreMagnitude` path.  For a
string-typed time the three relational comparisons coerce the string with
`Number()` (false on `NaN`), and the suspicious-perfect-score branch of
line 549 can never fire because `Number.isInteger(time)` is false for every
string. -/
def scoreMagnitudeJS (v : JSTimeValue) (d : Difficulty) : VResult :=
  match v with
  | .num q => scoreMagnitude q d
  | .str s =>
    if jsNumLT (jsToNumber s) (minTimes d) then ⟨false, "score_too_fast", "high"⟩
    else if jsNumGT (jsToNumber s) (maxReasonableTimes d) then
      ⟨false, "score_out_of_range", "low"⟩
    else if jsNumLT (jsToNumber s) (worldRecords d) then
      ⟨false, "faster_than_world_record", "critical"⟩
    else ⟨true, "", "none"⟩

/-- Model of `validateScoreReasonableness(time, difficulty, gameData)`
(src/optimized.js lines 499-558) on the full `time` domain, wrapping
`scoreMagnitudeJS` with the session-validation gate exactly as
`validateScoreReasonableness` does for a number-typed time. -/
def validateScoreReasonablenessJS (v : JSTimeValue) (d : Difficulty)
    (gameData : Option GameData) (nowMs : Int) : VResult :=
  match gameData with
  | some gd =>
    let gv := validateGameSession gd nowMs
    if gv.valid then scoreMagnitudeJS v d else ⟨false, gv.reason, "critical"⟩
  | none => scoreMagnitudeJS v d

/-- Per-user rolling statistics (`security:user_stats:*` records,
src/optimized.js lines 567-574).  `lastSubmission` is the stored ISO
timestamp converted to milliseconds (`none` for the initial `null`). -/
structure UserStats where
  submissions : Int
  bestTime : Option ℚ
  averageTime : ℚ
  totalTime : ℚ
  lastSubmission : Option Int
  suspiciousCount : Int
deriving DecidableEq, Repr

/-- The default statistics used when no record exists
(src/optimized.js lines 567-574). -/
def defaultUserStats : UserStats :=
  ⟨0, none, 0, 0, none, 0⟩

/-- Result of `analyzeUserBehavior`: a temporary block, or the updated
statistics that the function persisted. -/
inductive BehaviorResult where
  | blocked
  | ok (stats : UserStats)
deriving DecidableEq, Repr

/-- JavaScript `Math.max(0, n)` (kept as an executable `if` so that kernel
evaluation works; see `jsMax0_eq_max`). -/
def jsMax0 (n : Int) : Int :=
  if n < 0 then 0 else n

/-- Statistics update of `analyzeUserBehavior` (src/optimized.js lines
612-617): bump submissions, accumulate total time, recompute the average,
take the minimum as best time (`stats.bestTime ? min : time`, where a
stored `0` is falsy), and stamp the submission time. -/
def updateStats (stats : UserStats) (time : ℚ) (nowMs : Int) : UserStats :=
  let s1 := { stats with submissions := stats.submissions + 1 }
  let s2 := { s1 with totalTime := s1.totalTime + time }
  let s3 := { s2 with averageTime := s2.totalTime / (s2.submissions : ℚ) }
  let s4 := { s3 with bestTime := some (match s3.bestTime with
      | some b => if b = 0 then time else min b time
      | none => time) }
  { s4 with lastSubmission := some nowMs }

/-- Model of `analyzeUserBehavior` (src/optimized.js lines 561-628) for one
(username, difficulty) statistics record.  A missing `lastSubmission` gives
`timeSinceLastSubmission = Infinity`, which is never below the 5-minute
window.  On the frequent-submission path the suspicion counter is bumped
and a count above 3 blocks without persisting anything; otherwise the
counter decays (floored at zero) and the updated statistics are persisted. -/
def analyzeUserBehavior (stats : UserStats) (time : ℚ) (nowMs : Int) : BehaviorResult :=
  let frequent : Bool :=
    match stats.lastSubmission with
    | some l => decide (((nowMs - l : Int) : ℚ) / 1000 < 300)
    | none => false
  if frequent then
    let bumped := { stats with suspiciousCount := stats.suspiciousCount + 1 }
    if 3 < bumped.suspiciousCount then .blocked
    else .ok (updateStats bumped time nowMs)
  else .ok (updateStats { stats with suspiciousCount := jsMax0 (stats.suspiciousCount - 1) }
      time nowMs)

/-- One stored leaderboard entry (src/optimized.js lines 1207-1214).
`timestamp` is the server time in milliseconds (the source stores it as an
ISO string). -/
structure ScoreRecord where
  username : String
  time : Int
  timestamp : Int
  gameId : String
  moves : Int
  verified : Bool
deriving DecidableEq, Repr

/-- Ordering by stored time, the comparator `(a, b) => a.time - b.time` of
src/optimized.js line 1255. -/
def byTime (a b : ScoreRecord) : Prop :=
  a.time ≤ b.time

instance : DecidableRel byTime :=
  fun a b => inferInstanceAs (Decidable (a.time ≤ b.time))

instance : IsTotal ScoreRecord byTime :=
  ⟨fun a b => le_total a.time b.time⟩

instance : IsTrans ScoreRecord byTime :=
  ⟨fun _ _ _ h1 h2 => le_trans h1 h2⟩

/-- The tier sort `leaderboard.sort((a, b) => a.time - b.time)` of
src/optimized.js line 1255, modelled as insertion sort by `byTime`. -/
def sortByTime (l : List ScoreRecord) : List ScoreRecord :=
  List.insertionSort byTime l

/-- JavaScript `findIndex`, returning the first matching index together
with the element found there (`leaderboard.findIndex` plus the
`leaderboard[existingIndex]` accesses of src/optimized.js lines 1217-1236). -/
def jsFindIndexRec {α : Type} (p : α → Bool) : List α → Option (Nat × α)
  | [] => none
  | x :: xs =>
    if p x then some (0, x)
    else (jsFindIndexRec p xs).map (fun q => (q.1 + 1, q.2))

/-- JavaScript `findIndex` (index only). -/
def jsFindIndex {α : Type} (p : α → Bool) (l : List α) : Option Nat :=
  (jsFindIndexRec p l).map Prod.fst

/-- JavaScript `parseInt` applied to a number: truncation toward zero. -/
def jsTrunc (t : ℚ) : Int :=
  if 0 ≤ t then t.floor else t.ceil

/-- JavaScript `(jsTrim username)()`: strip leading and trailing whitespace. -/
def jsTrim (s : String) : String :=
  String.mk (((s.toList.dropWhile Char.isWhitespace).reverse.dropWhile
    Char.isWhitespace).reverse)

/-- Delete a key from the process-local cache, which is modelled by the
list of keys it currently holds (`globalCache.delete`). -/
def cacheDelete (cache : List String) (key : String) : List String :=
  cache.filter (fun k => k ≠ key)

/-- Response produced by the POST submission path after validation. -/
inductive SubmitResponse where
  | suspiciousBehavior
  | duplicateGame
  | notImproved (data : List ScoreRecord) (currentBest : Int) (rank : Option Nat)
  | accepted (data : List ScoreRecord) (rank : Nat)
deriving DecidableEq, Repr

/-- Full outcome of the POST submission path after validation: the
response, the stored tier afterwards, the cache keys afterwards, the
statistics persisted by `analyzeUserBehavior` (if any), and whether the
tier was written (`env.LEADERBOARD.put` on line 1261). -/
structure PostOutcome where
  response : SubmitResponse
  tierAfter : List ScoreRecord
  cacheAfter : List String
  statsSaved : Option UserStats
  wrote : Bool
deriving DecidableEq, Repr

/-- Accept-path write (src/optimized.js lines 1254-1303): sort the tier
ascending by time, truncate to the top 20, persist, then synchronously
delete the tier cache key `leaderboard:<difficulty>` and (twice) the store
adapter's cache key `kv:leaderboard:<difficulty>`, and answer with the
caller's 1-based rank in the stored top 20 (0 when truncated out, from
`findIndex(...) + 1` with `findIndex = -1`). -/
def acceptWrite (d : Difficulty) (trimmedUsername : String) (leaderboard : List ScoreRecord)
    (cache : List String) (newStats : UserStats) : PostOutcome :=
  let top20 := (sortByTime leaderboard).take 20
  let cacheKey := "leaderboard:" ++ difficultyKey d
  let kvCacheKey := "kv:" ++ ("leaderboard:" ++ difficultyKey d)
  let cache1 := cacheDelete cache cacheKey
  let cache2 := cacheDelete cache1 kvCacheKey
  let cache3 := cacheDelete cache2 kvCacheKey
  let rank :=
    match jsFindIndex (fun r => r.username == trimmedUsername) top20 with
    | some j => j + 1
    | none => 0
  ⟨.accepted top20 rank, top20, cache3, some newStats, true⟩

/-- Model of the POST submission path of `handleLeaderboardAPI` from the
behavior-analysis gate onward (src/optimized.js lines 1177-1304), for one
difficulty tier.  `stats` is the stored per-user statistics record, `tier`
the stored leaderboard list, `cache` the process-local cache keys.  The
earlier gates (rate limit, field validation, score validation) are modelled
separately; this function is reached only when they passed. -/
def handlePostAfterValidation (d : Difficulty) (username : String) (time : ℚ)
    (gameId : String) (moves : Int) (stats : UserStats) (tier : List ScoreRecord)
    (cache : List String) (nowMs : Int) : PostOutcome :=
  match analyzeUserBehavior stats time nowMs with
  | .blocked => ⟨.suspiciousBehavior, tier, cache, none, false⟩
  | .ok newStats =>
    let trimmedUsername := jsTrim username
    match tier.find? (fun r => r.gameId == gameId) with
    | some _ => ⟨.duplicateGame, tier, cache, some newStats, false⟩
    | none =>
      let scoreRecord : ScoreRecord :=
        ⟨trimmedUsername, jsTrunc time, nowMs, gameId, moves, true⟩
      match jsFindIndexRec (fun r => r.username == trimmedUsername) tier with
      | some (i, existing) =>
        if jsTrunc time < existing.time then
          acceptWrite d trimmedUsername (tier.set i scoreRecord) cache newStats
        else
          ⟨.notImproved (tier.take 20) existing.time
              ((jsFindIndex (fun r => r.username == trimmedUsername) (tier.take 20)).map
                (fun j => j + 1)),
            tier, cache, some newStats, false⟩
      | none =>
        acceptWrite d trimmedUsername (tier ++ [scoreRecord]) cache newStats

/-- A full tier of 20 records with times 1..20, used to exercise the
truncation edge of the duplicate-submission guard. -/
def fullTier : List ScoreRecord :=
  (List.range 20).map (fun k => ⟨"u" ++ toString k, (k : Int) + 1, 0, "id" ++ toString k, 10, true⟩)

/-! ## Rate limiter (claim C5) -/

/-- C5 counterexample: at an IP counter at its ceiling, the over-limit
branch throws (the `logSecurityEvent` it calls was removed from the source)
and the error-handler fallback is returned: the request is rejected with
remaining 0 and unchanged counters, but no security event is recorded —
refuting the claim's "a security event is recorded" conjunct. -/
theorem c5_counterexample :
    checkRateLimitInner 20 0 0 =
      Except.error "ReferenceError: logSecurityEvent is not defined" ∧
    checkRateLimit 20 0 0 = ⟨false, 0, false, 20, 0, 0⟩ :=
  ⟨rfl, rfl⟩

/-- C5 amended: if any of the three rate-limit scopes (IP ceiling 20/min,
fingerprint 15/min, global 1000/min) has a counter at or above its ceiling,
the branch throws a `ReferenceError` on the removed `logSecurityEvent` and
the error handler returns its fallback — the request is rejected with
remaining 0, no security event is recorded, and no counter is incremented;
if all scopes are under ceiling, all three counters are incremented and
the request proceeds with `remaining = 15 - fingerprintCount - 1`. -/
theorem c5_rate_limit_amended (ip fp gl : Nat) :
    ((20 ≤ ip ∨ 15 ≤ fp ∨ 1000 ≤ gl) →
      checkRateLimitInner ip fp gl =
        Except.error "ReferenceError: logSecurityEvent is not defined" ∧
      checkRateLimit ip fp gl = ⟨false, 0, false, ip, fp, gl⟩) ∧
    (ip < 20 → fp < 15 → gl < 1000 →
      checkRateLimit ip fp gl =
        ⟨true, (15 : Int) - (fp : Int) - 1, false, ip + 1, fp + 1, gl + 1⟩) := by
  cases hf : ([(ip, 20), (fp, 15), (gl, 1000)] : List (Nat × Nat)).find? (fun c => c.2 ≤ c.1) with
  | none =>
    have hall := List.find?_eq_none.mp hf
    have h1 : ¬ (20 ≤ ip) := by simpa using hall (ip, 20) (by simp)
    have h2 : ¬ (15 ≤ fp) := by simpa using hall (fp, 15) (by simp)
    have h3 : ¬ (1000 ≤ gl) := by simpa using hall (gl, 1000) (by simp)
    constructor
    · intro h
      rcases h with h | h | h
      exacts [absurd h h1, absurd h h2, absurd h h3]
    · intro _ _ _
      simp only [checkRateLimit, checkRateLimitInner, hf]
  | some c =>
    have hc := List.find?_some hf
    have hmem := List.mem_of_find?_eq_some hf
    constructor
    · intro _
      constructor
      · simp only [checkRateLimitInner, hf]
      · simp only [checkRateLimit, checkRateLimitInner, hf]
    · intro k1 k2 k3
      exfalso
      simp only [List.mem_cons, List.not_mem_nil, or_false] at hmem
      rcases hmem with rfl | rfl | rfl <;> simp at hc <;> omega

/-- C5 witness: one rejected (fallback, no event) and one admitted
concrete request. -/
theorem c5_rate_limit_amended_witness :
    checkRateLimit 20 0 0 = ⟨false, 0, false, 20, 0, 0⟩ ∧
    checkRateLimit 3 4 5 = ⟨true, 10, false, 4, 5, 6⟩ := by
  constructor
  · exact ((c5_rate_limit_amended 20 0 0).1 (Or.inl (le_refl 20))).2
  · have h := (c5_rate_limit_amended 3 4 5).2 (by omega) (by omega) (by omega)
    simpa using h

/-! ## Store adapter `safeGet` (claim C9) -/

/-- C9 counterexample: when the durable store holds the empty string (a
present but falsy value), `safeGet` resolves to the caller-supplied absent
default and nevertheless writes that default into the cache, refuting "a
lookup that resolved to the caller-supplied absent default is never written
into the cache". -/
theorem c9_counterexample :
    (safeGet (fun s => s) "DEFAULT" true none (some "")).result = "DEFAULT" ∧
    (safeGet (fun s => s) "DEFAULT" true none (some "")).cacheWrite = some "DEFAULT" :=
  ⟨rfl, rfl⟩

/-- C9 amended: on a cache miss the durable store is read and the result is
written into the cache exactly when the store returned a non-null value; a
null (absent) store result resolves to the default and is never cached; but
a present empty-string value also resolves to the default and is still
cached; a cache hit returns the cached value without touching the store. -/
theorem c9_amended {α : Type} (parse : String → α) (defaultValue : α)
    (kvData : Option String) :
    (safeGet parse defaultValue true none kvData).kvRead = true ∧
    ((safeGet parse defaultValue true none kvData).cacheWrite.isSome ↔ kvData.isSome) ∧
    (kvData = none →
      (safeGet parse defaultValue true none kvData).result = defaultValue ∧
      (safeGet parse defaultValue true none kvData).cacheWrite = none) ∧
    (kvData = some "" →
      (safeGet parse defaultValue true none kvData).result = defaultValue ∧
      (safeGet parse defaultValue true none kvData).cacheWrite = some defaultValue) ∧
    (∀ v : α, safeGet parse defaultValue true (some v) kvData = ⟨v, false, none⟩) := by
  cases kvData with
  | none =>
    refine ⟨rfl, ?_, ?_, ?_, ?_⟩
    · simp [safeGet, safeGetMiss]
    · intro _
      exact ⟨rfl, rfl⟩
    · intro h
      exact Option.noConfusion h
    · intro v
      rfl
  | some s =>
    refine ⟨rfl, ?_, ?_, ?_, ?_⟩
    · simp [safeGet, safeGetMiss]
    · intro h
      exact Option.noConfusion h
    · intro h
      have hs : s = "" := by injection h
      subst hs
      exact ⟨rfl, rfl⟩
    · intro v
      rfl

/-- C9 witness: a null store result is not cached. -/
theorem c9_amended_witness :
    (safeGet (fun s => s) "D" true none none).result = "D" ∧
    (safeGet (fun s => s) "D" true none none).cacheWrite = none :=
  (c9_amended (fun s => s) "D" none).2.2.1 rfl

/-! ## Admin token validation (claim C3) -/

/-- C3 counterexample: a token whose timestamp part is non-numeric does not
fail the expiry step with `token_expired`; `parseInt` yields `NaN`, both
age comparisons are false, and validation proceeds to the signature step. -/
theorem c3_counterexample :
    validateAdminToken "abc:xyz" "0123456789abcdefghij0123456789ab" 1000000 false ≠
      TokenResult.invalid "token_expired" := by
  set_option maxRecDepth 20000 in decide

/-- Characterisation of the expiry condition: it holds exactly when the
timestamp parses to a number whose age is above the window or negative. -/
theorem tokenExpired_eq_true_iff (timestampStr : String) (nowMs : Int) :
    tokenExpired timestampStr nowMs = true ↔
      ∃ ts : Int, jsParseInt timestampStr = some ts ∧
        (300000 < nowMs - ts ∨ nowMs - ts < 0) := by
  unfold tokenExpired
  cases hp : jsParseInt timestampStr with
  | none => simp
  | some ts => simp

/-- C3 amended: for a structurally well-formed token, validation rejects
with `token_expired` exactly when the timestamp part parses to a number
(`parseInt` not NaN) whose age `now - ts` is above 300000 ms or negative;
a non-numeric timestamp passes this step and falls through to signature
verification. -/
theorem c3_amended (decoded adminKey : String) (nowMs : Int) (used : Bool)
    (timestampStr signature : String)
    (hsplit : jsSplit decoded ':' = [timestampStr, signature]) :
    validateAdminToken decoded adminKey nowMs used = TokenResult.invalid "token_expired" ↔
      ∃ ts : Int, jsParseInt timestampStr = some ts ∧
        (300000 < nowMs - ts ∨ nowMs - ts < 0) := by
  rw [← tokenExpired_eq_true_iff timestampStr nowMs]
  simp only [validateAdminToken, hsplit]
  cases hE : tokenExpired timestampStr nowMs with
  | true =>
    simp [hE]
  | false =>
    simp only [hE, Bool.false_eq_true, if_false]
    refine iff_of_false ?_ (by simp)
    intro h
    split_ifs at h <;> exact absurd h (by decide)

/-- C3 witness: a numeric timestamp far in the past is rejected as
`token_expired`. -/
theorem c3_amended_witness :
    validateAdminToken "0:x" "k" 1000000 false = TokenResult.invalid "token_expired" :=
  (c3_amended "0:x" "k" 1000000 false "0" "x" (by decide)).mpr ⟨0, by decide, by decide⟩

/-! ## Score validation (claims C6, C10) -/

/-- Characterisation of the magnitude checks: the claim passes exactly when
it is within the per-difficulty floor and ceiling, at or above the world
record, and not an integer below twice the world record. -/
theorem scoreMagnitude_valid_iff (d : Difficulty) (t : ℚ) :
    (scoreMagnitude t d).valid = true ↔
      (minTimes d ≤ t ∧ t ≤ maxReasonableTimes d ∧ worldRecords d ≤ t ∧
        ¬(t.den = 1 ∧ t < 2 * worldRecords d)) := by
  unfold scoreMagnitude
  split_ifs with h1 h2 h3 h4
  · exact iff_of_false (by simp) (fun h => absurd h1 (not_lt.2 h.1))
  · exact iff_of_false (by simp) (fun h => absurd h2 (not_lt.2 h.2.1))
  · exact iff_of_false (by simp) (fun h => absurd h3 (not_lt.2 h.2.2.1))
  · exact iff_of_false (by simp) (fun h => h.2.2.2 h4)
  · exact iff_of_true rfl ⟨not_lt.1 h1, not_lt.1 h2, not_lt.1 h3, h4⟩

/-- The full score validation only accepts claims whose magnitude checks
accept. -/
theorem vsr_valid_then_magnitude (t : ℚ) (d : Difficulty) (gd : Option GameData)
    (nowMs : Int) :
    (validateScoreReasonableness t d gd nowMs).valid = true →
      (scoreMagnitude t d).valid = true := by
  cases gd with
  | none => exact id
  | some g =>
    simp only [validateScoreReasonableness]
    split_ifs with h
    · exact id
    · intro hc
      exact absurd hc (by simp)

/-- A claim failing the magnitude checks fails the full score validation. -/
theorem vsr_valid_eq_false_of (t : ℚ) (d : Difficulty) (gd : Option GameData) (nowMs : Int)
    (h : (scoreMagnitude t d).valid = true → False) :
    (validateScoreReasonableness t d gd nowMs).valid = false := by
  cases hv : (validateScoreReasonableness t d gd nowMs).valid
  · rfl
  · exact absurd (vsr_valid_then_magnitude t d gd nowMs hv) h

/-- C6: the score-magnitude validation rejects every claim whose time is
below the per-difficulty floor (1/3/5 s) or above the per-difficulty
ceiling (999/1999/2999 s), rejects every claim whose time is below the
per-difficulty world-record reference (0.49/7.03/31.133 s) regardless of
all other fields, and rejects every integer time below twice the world
record as a suspicious round time. -/
theorem c6_score_bounds (d : Difficulty) (t : ℚ) (gd : Option GameData) (nowMs : Int) :
    (t < minTimes d → (validateScoreReasonableness t d gd nowMs).valid = false) ∧
    (maxReasonableTimes d < t → (validateScoreReasonableness t d gd nowMs).valid = false) ∧
    (t < worldRecords d → (validateScoreReasonableness t d gd nowMs).valid = false) ∧
    (t.den = 1 → t < 2 * worldRecords d →
      (validateScoreReasonableness t d gd nowMs).valid = false) := by
  refine ⟨?_, ?_, ?_, ?_⟩
  · intro h
    refine vsr_valid_eq_false_of t d gd nowMs (fun hm => ?_)
    have hc := (scoreMagnitude_valid_iff d t).1 hm
    exact absurd h (not_lt.2 hc.1)
  · intro h
    refine vsr_valid_eq_false_of t d gd nowMs (fun hm => ?_)
    have hc := (scoreMagnitude_valid_iff d t).1 hm
    exact absurd h (not_lt.2 hc.2.1)
  · intro h
    refine vsr_valid_eq_false_of t d gd nowMs (fun hm => ?_)
    have hc := (scoreMagnitude_valid_iff d t).1 hm
    exact absurd h (not_lt.2 hc.2.2.1)
  · intro hden h
    refine vsr_valid_eq_false_of t d gd nowMs (fun hm => ?_)
    have hc := (scoreMagnitude_valid_iff d t).1 hm
    exact hc.2.2.2 ⟨hden, h⟩

/-- C6 witness: an expert claim of 10 s (below the 31.133 s world record)
is rejected, with or without game data. -/
theorem c6_score_bounds_witness :
    (validateScoreReasonableness 10 Difficulty.expert none 0).valid = false :=
  (c6_score_bounds Difficulty.expert 10 none 0).2.2.1 (by norm_num [worldRecords])

/-- Characterisation of the numeric core of `validateTime`: a finite
number is accepted exactly when it is an integer between 1 and 9999. -/
theorem validateTimeCore_valid_iff (t : ℚ) :
    (validateTimeCore t).valid = true ↔ (t = ((t.floor : Int) : ℚ) ∧ 1 ≤ t ∧ t ≤ 9999) := by
  unfold validateTimeCore
  split_ifs with h1 h2
  · refine iff_of_false (by simp) (fun h => ?_)
    rcases h1 with h1 | h1
    · exact h1 h.1
    · exact absurd h.2.1 (not_le.2 h1)
  · exact iff_of_false (by simp) (fun h => absurd h.2.2 (not_le.2 h2))
  · push_neg at h1
    exact iff_of_true rfl ⟨h1.1, h1.2, not_lt.1 h2⟩

/-- On a number-typed time, the full-domain score validation coincides
with the numeric one. -/
theorem vsrJS_num (q : ℚ) (d : Difficulty) (gd : Option GameData) (nowMs : Int) :
    validateScoreReasonablenessJS (JSTimeValue.num q) d gd nowMs =
      validateScoreReasonableness q d gd nowMs := by
  cases gd with
  | none => rfl
  | some g => rfl

/-- C10 counterexample: a string-typed expert claim with time `"40"`
passes `validateTime` (Number coercion gives the integer 40) and passes
the full score validation with a valid game session — it is not rejected,
although its numeric value 40 is at most 62 and above the 31.133 s world
record, because `Number.isInteger` is false for strings and the
suspicious-round-time rule never fires. -/
theorem c10_counterexample :
    (validateTime (JSTimeValue.str "40")).valid = true ∧
    (validateScoreReasonablenessJS (JSTimeValue.str "40") Difficulty.expert
      (some ⟨Difficulty.expert, 40, 100, "g", 0, 30, 16, 99, 40000, 0, "won"⟩) 0).valid
      = true := by
  have h40 : jsToNumber "40" = some 40 := by rfl
  constructor
  · simp only [validateTime, h40]
    decide
  · have hgs : (validateGameSession
        ⟨Difficulty.expert, 40, 100, "g", 0, 30, 16, 99, 40000, 0, "won"⟩ 0).valid
        = true := by
      norm_num [validateGameSession, expectedBoard, minMoves]
      decide
    have hsm : (scoreMagnitudeJS (JSTimeValue.str "40") Difficulty.expert).valid = true := by
      simp only [scoreMagnitudeJS, h40]
      norm_num [jsNumLT, jsNumGT, minTimes, maxReasonableTimes, worldRecords]
    simp only [validateScoreReasonablenessJS]
    rw [if_pos hgs]
    exact hsm

/-- C10 amended: for a *number-typed* time accepted by `validateTime`
(hence a positive integer), the round-time rule makes every intermediate
claim with time ≤ 14 s and every expert claim with time ≤ 62 s rejected
even above the world-record floors, while every accepted beginner time up
to the 999 s ceiling passes the magnitude checks (each integer ≥ 1 exceeds
2 × 0.49 s).  For a *string-typed* time — which `validateTime` also
accepts, via Number coercion — `Number.isInteger` is false and the
round-time rule never fires: any string whose numeric value lies within
the floor, ceiling and world-record bounds passes the magnitude checks. -/
theorem c10_round_time_gap_amended (v : JSTimeValue) (gd : Option GameData) (nowMs : Int)
    (hvt : (validateTime v).valid = true) :
    (∀ q : ℚ, v = JSTimeValue.num q →
      (q ≤ 14 →
        (validateScoreReasonablenessJS v Difficulty.intermediate gd nowMs).valid = false) ∧
      (q ≤ 62 →
        (validateScoreReasonablenessJS v Difficulty.expert gd nowMs).valid = false) ∧
      (q ≤ 999 → (scoreMagnitudeJS v Difficulty.beginner).valid = true)) ∧
    (∀ (s : String) (q : ℚ), v = JSTimeValue.str s → jsToNumber s = some q →
      ∀ d : Difficulty, minTimes d ≤ q → q ≤ maxReasonableTimes d → worldRecords d ≤ q →
        (scoreMagnitudeJS v d).valid = true) := by
  constructor
  · rintro q rfl
    have hvt2 : (validateTimeCore q).valid = true := hvt
    obtain ⟨hfl, h1, h9999⟩ := (validateTimeCore_valid_iff q).1 hvt2
    have hden : q.den = 1 := by
      rw [hfl]
      exact Rat.den_intCast _
    refine ⟨?_, ?_, ?_⟩
    · intro h14
      rw [vsrJS_num]
      refine vsr_valid_eq_false_of q _ gd nowMs (fun hm => ?_)
      have hc := (scoreMagnitude_valid_iff Difficulty.intermediate q).1 hm
      have h2wr : (14 : ℚ) < 2 * worldRecords Difficulty.intermediate := by
        norm_num [worldRecords]
      exact hc.2.2.2 ⟨hden, lt_of_le_of_lt h14 h2wr⟩
    · intro h62
      rw [vsrJS_num]
      refine vsr_valid_eq_false_of q _ gd nowMs (fun hm => ?_)
      have hc := (scoreMagnitude_valid_iff Difficulty.expert q).1 hm
      have h2wr : (62 : ℚ) < 2 * worldRecords Difficulty.expert := by
        norm_num [worldRecords]
      exact hc.2.2.2 ⟨hden, lt_of_le_of_lt h62 h2wr⟩
    · intro h999
      show (scoreMagnitude q Difficulty.beginner).valid = true
      refine (scoreMagnitude_valid_iff Difficulty.beginner q).2 ⟨?_, ?_, ?_, ?_⟩
      · simpa [minTimes] using h1
      · simpa [maxReasonableTimes] using h999
      · have : worldRecords Difficulty.beginner ≤ 1 := by norm_num [worldRecords]
        linarith
      · intro hx
        have h2wr : 2 * worldRecords Difficulty.beginner < 1 := by
          norm_num [worldRecords]
        exact absurd hx.2 (not_lt.2 (by linarith))
  · rintro s q rfl hq d hmin hmax hwr
    have c1 : jsNumLT (jsToNumber s) (minTimes d) = false := by
      rw [hq]
      show decide (q < minTimes d) = false
      exact decide_eq_false (not_lt.2 hmin)
    have c2 : jsNumGT (jsToNumber s) (maxReasonableTimes d) = false := by
      rw [hq]
      show decide (maxReasonableTimes d < q) = false
      exact decide_eq_false (not_lt.2 hmax)
    have c3 : jsNumLT (jsToNumber s) (worldRecords d) = false := by
      rw [hq]
      show decide (q < worldRecords d) = false
      exact decide_eq_false (not_lt.2 hwr)
    simp only [scoreMagnitudeJS, c1, c2, c3, Bool.false_eq_true, if_false]

/-- C10 witness: a number-typed expert 62 s claim is rejected; a
string-typed expert `"40"` (numeric value 40 ≤ 62, above the world record)
passes the magnitude checks. -/
theorem c10_round_time_gap_amended_witness :
    (validateScoreReasonablenessJS (JSTimeValue.num 62) Difficulty.expert none 0).valid
      = false ∧
    (scoreMagnitudeJS (JSTimeValue.str "40") Difficulty.expert).valid = true := by
  constructor
  · exact ((c10_round_time_gap_amended (JSTimeValue.num 62) none 0 (by decide)).1
      62 rfl).2.1 (by norm_num)
  · have hvt : (validateTime (JSTimeValue.str "40")).valid = true := by
      have h40 : jsToNumber "40" = some 40 := by rfl
      simp only [validateTime, h40]
      decide
    exact (c10_round_time_gap_amended (JSTimeValue.str "40") none 0 hvt).2
      "40" 40 rfl (by rfl) Difficulty.expert (by norm_num [minTimes])
      (by norm_num [maxReasonableTimes]) (by norm_num [worldRecords])

/-! ## List helpers for the leaderboard pipeline -/

/-- A successful `findIndex` returns the element stored at the returned
index, and that element satisfies the predicate. -/
theorem jsFindIndexRec_eq_some {α : Type} {p : α → Bool} :
    ∀ {l : List α} {i : Nat} {x : α}, jsFindIndexRec p l = some (i, x) →
      l.get? i = some x ∧ p x = true := by
  intro l
  induction l with
  | nil =>
    intro i x h
    exact Option.noConfusion h
  | cons y ys ih =>
    intro i x h
    simp only [jsFindIndexRec] at h
    by_cases hp : p y
    · rw [if_pos hp] at h
      injection h with h
      cases h
      exact ⟨rfl, hp⟩
    · rw [if_neg hp] at h
      rw [Option.map_eq_some'] at h
      obtain ⟨⟨j, z⟩, hrec, heq⟩ := h
      cases heq
      exact ih hrec

/-- A failed `findIndex` means no element satisfies the predicate. -/
theorem jsFindIndexRec_eq_none {α : Type} {p : α → Bool} :
    ∀ {l : List α}, jsFindIndexRec p l = none → ∀ x ∈ l, p x = false := by
  intro l
  induction l with
  | nil =>
    intro _ x hx
    exact absurd hx (List.not_mem_nil x)
  | cons y ys ih =>
    intro h x hx
    simp only [jsFindIndexRec] at h
    by_cases hp : p y
    · rw [if_pos hp] at h
      exact Option.noConfusion h
    · rw [if_neg hp] at h
      rcases List.mem_cons.mp hx with rfl | hx2
      · exact Bool.eq_false_iff.mpr hp
      · have hrec : jsFindIndexRec p ys = none := by
          cases hrec : jsFindIndexRec p ys with
          | none => rfl
          | some q =>
            rw [hrec] at h
            exact Option.noConfusion h
        exact ih hrec x hx2

/-- Setting an index that is in bounds puts the new element in the list. -/
theorem mem_set_self {α : Type} :
    ∀ (l : List α) (i : Nat) (a : α), i < l.length → a ∈ l.set i a
  | [], _, _, h => absurd h (by simp)
  | _ :: _, 0, a, _ => by simp [List.set]
  | x :: xs, i + 1, a, h => by
    simp only [List.set]
    exact List.mem_cons_of_mem _ (mem_set_self xs i a (by simpa using h))

/-- Setting an index to the value it already holds leaves the list
unchanged. -/
theorem set_get?_eq {α : Type} :
    ∀ (l : List α) (i : Nat) (a : α), l.get? i = some a → l.set i a = l
  | [], _, _, h => Option.noConfusion h
  | x :: xs, 0, a, h => by
    injection h with h
    rw [List.set, h]
  | x :: xs, i + 1, a, h => by
    simp only [List.set]
    rw [set_get?_eq xs i a h]

/-- Adjacent entries of a `Pairwise` list are related. -/
theorem pairwise_get?_adjacent {α : Type} {R : α → α → Prop} :
    ∀ (l : List α), l.Pairwise R → ∀ (j : Nat) (a b : α),
      l.get? j = some a → l.get? (j + 1) = some b → R a b
  | [], _, _, _, _, ha, _ => Option.noConfusion ha
  | x :: xs, hl, 0, a, b, ha, hb => by
    injection ha with ha
    subst ha
    exact (List.pairwise_cons.mp hl).1 b (List.get?_mem hb)
  | x :: xs, hl, j + 1, a, b, ha, hb =>
    pairwise_get?_adjacent xs (List.pairwise_cons.mp hl).2 j a b ha hb

/-- The tier sort is a permutation of its input. -/
theorem sortByTime_perm (l : List ScoreRecord) : (sortByTime l).Perm l :=
  List.perm_insertionSort byTime l

/-- The tier sort is sorted by stored time. -/
theorem sortByTime_sorted (l : List ScoreRecord) : (sortByTime l).Pairwise byTime :=
  List.sorted_insertionSort byTime l

/-- The key being deleted is absent afterwards. -/
theorem not_mem_cacheDelete_self (c : List String) (k : String) : k ∉ cacheDelete c k := by
  intro h
  have := (List.mem_filter.mp h).2
  simp at this

/-- Deleting a key only removes entries. -/
theorem mem_of_mem_cacheDelete {c : List String} {k x : String}
    (h : x ∈ cacheDelete c k) : x ∈ c :=
  (List.mem_filter.mp h).1

/-- Cache state after an accept-path write: the tier key deleted, then the
adapter key deleted twice. -/
theorem acceptWrite_cacheAfter (d : Difficulty) (u : String) (lb : List ScoreRecord)
    (cache : List String) (ns : UserStats) :
    (acceptWrite d u lb cache ns).cacheAfter =
      cacheDelete
        (cacheDelete (cacheDelete cache ("leaderboard:" ++ difficultyKey d))
          ("kv:" ++ ("leaderboard:" ++ difficultyKey d)))
        ("kv:" ++ ("leaderboard:" ++ difficultyKey d)) :=
  rfl

/-- The tier stored by an accept-path write is bounded, sorted and (given a
duplicate-free input) duplicate-free in usernames. -/
theorem acceptWrite_invariant (d : Difficulty) (u : String) (lb : List ScoreRecord)
    (cache : List String) (ns : UserStats)
    (h : (lb.map ScoreRecord.username).Nodup) :
    (acceptWrite d u lb cache ns).tierAfter.length ≤ 20 ∧
    (acceptWrite d u lb cache ns).tierAfter.Pairwise byTime ∧
    ((acceptWrite d u lb cache ns).tierAfter.map ScoreRecord.username).Nodup := by
  refine ⟨?_, ?_, ?_⟩
  · show ((sortByTime lb).take 20).length ≤ 20
    rw [List.length_take]
    exact min_le_left _ _
  · exact List.Pairwise.sublist (List.take_sublist 20 _) (sortByTime_sorted lb)
  · have hp : ((sortByTime lb).map ScoreRecord.username).Perm (lb.map ScoreRecord.username) :=
      (sortByTime_perm lb).map _
    have hnd : ((sortByTime lb).map ScoreRecord.username).Nodup := hp.symm.nodup h
    exact List.Nodup.sublist ((List.take_sublist 20 _).map _) hnd

/-- Every outcome with `wrote = true` comes from an accept-path write of
either the replaced or the extended tier, and that tier preserves
username-uniqueness. -/
theorem wrote_eq_acceptWrite (d : Difficulty) (username : String) (time : ℚ)
    (gameId : String) (moves : Int) (stats : UserStats) (tier : List ScoreRecord)
    (cache : List String) (nowMs : Int)
    (hw : (handlePostAfterValidation d username time gameId moves stats tier cache nowMs).wrote
      = true) :
    ∃ (ns : UserStats) (lb : List ScoreRecord),
      ((tier.map ScoreRecord.username).Nodup → (lb.map ScoreRecord.username).Nodup) ∧
      handlePostAfterValidation d username time gameId moves stats tier cache nowMs =
        acceptWrite d (jsTrim username) lb cache ns := by
  cases hok : analyzeUserBehavior stats time nowMs with
  | blocked =>
    simp only [handlePostAfterValidation, hok] at hw
    exact absurd hw (by simp)
  | ok ns =>
    cases hdup : tier.find? (fun r => r.gameId == gameId) with
    | some r0 =>
      simp only [handlePostAfterValidation, hok, hdup] at hw
      exact absurd hw (by simp)
    | none =>
      cases hfind : jsFindIndexRec (fun r => r.username == (jsTrim username)) tier with
      | some q =>
        obtain ⟨i, ex⟩ := q
        by_cases hlt : jsTrunc time < ex.time
        · refine ⟨ns,
            tier.set i ⟨(jsTrim username), jsTrunc time, nowMs, gameId, moves, true⟩, ?_, ?_⟩
          · intro hnd
            have hget := (jsFindIndexRec_eq_some hfind).1
            have hpx := (jsFindIndexRec_eq_some hfind).2
            have hxu : ex.username = (jsTrim username) := by
              exact eq_of_beq hpx
            rw [List.map_set]
            have hmu : (tier.map ScoreRecord.username).get? i = some (jsTrim username) := by
              rw [List.get?_map, hget]
              simp [hxu]
            rw [show ScoreRecord.username
                  ⟨(jsTrim username), jsTrunc time, nowMs, gameId, moves, true⟩ = (jsTrim username)
                from rfl]
            rw [set_get?_eq _ _ _ hmu]
            exact hnd
          · simp only [handlePostAfterValidation, hok, hdup, hfind, if_pos hlt]
        · simp only [handlePostAfterValidation, hok, hdup, hfind, if_neg hlt] at hw
          exact absurd hw (by simp)
      | none =>
        refine ⟨ns, tier ++ [⟨(jsTrim username), jsTrunc time, nowMs, gameId, moves, true⟩], ?_, ?_⟩
        · intro hnd
          have hnot := jsFindIndexRec_eq_none hfind
          have hmm : (jsTrim username) ∉ tier.map ScoreRecord.username := by
            intro hm
            obtain ⟨x, hx, hxe⟩ := List.mem_map.mp hm
            have hfx := hnot x hx
            rw [hxe] at hfx
            simp at hfx
          rw [List.map_append]
          exact ((List.perm_append_singleton _ _).symm).nodup
            (List.nodup_cons.mpr ⟨hmm, hnd⟩)
        · simp only [handlePostAfterValidation, hok, hdup, hfind]

/-! ## Leaderboard accept path (claims C1, C2, C4, C7, C8) -/

/-- The executable `jsMax0` is the flooring at zero. -/
theorem jsMax0_eq_max (n : Int) : jsMax0 n = max 0 n := by
  unfold jsMax0
  split_ifs with h <;> omega

/-- Behavior analysis of a user with no stored statistics: never frequent
(`Infinity` since last submission), so the statistics are initialised and
persisted. -/
theorem analyzeUserBehavior_fresh (time : ℚ) (nowMs : Int) :
    analyzeUserBehavior defaultUserStats time nowMs =
      BehaviorResult.ok ⟨1, some time, time, time, some nowMs, 0⟩ := by
  norm_num [analyzeUserBehavior, updateStats, defaultUserStats, jsMax0]

/-- C1: on the submission accept path, for a user who already holds a
record in the tier (and a fresh `gameId`), the stored record is replaced
exactly when the new time is strictly lower than the stored time: a
strictly better time produces an accept-path write of the tier with the
record replaced (and the new record is stored whenever the tier held at
most 20 entries), while a tied or worse time performs no write, leaves the
stored tier unchanged, and answers with the success response
`improved: false` carrying the current leaderboard state. -/
theorem c1_replace_iff_better (d : Difficulty) (username : String) (time : ℚ)
    (gameId : String) (moves : Int) (stats newStats : UserStats)
    (tier : List ScoreRecord) (cache : List String) (nowMs : Int)
    (i : Nat) (existing : ScoreRecord)
    (hok : analyzeUserBehavior stats time nowMs = BehaviorResult.ok newStats)
    (hdup : tier.find? (fun r => r.gameId == gameId) = none)
    (hfind : jsFindIndexRec (fun r => r.username == (jsTrim username)) tier = some (i, existing)) :
    (jsTrunc time < existing.time →
      (handlePostAfterValidation d username time gameId moves stats tier cache nowMs).wrote
          = true ∧
      (handlePostAfterValidation d username time gameId moves stats tier cache nowMs).tierAfter
          = (sortByTime (tier.set i
              ⟨(jsTrim username), jsTrunc time, nowMs, gameId, moves, true⟩)).take 20 ∧
      (tier.length ≤ 20 →
        (⟨(jsTrim username), jsTrunc time, nowMs, gameId, moves, true⟩ : ScoreRecord) ∈
          (handlePostAfterValidation d username time gameId moves stats tier
            cache nowMs).tierAfter)) ∧
    (existing.time ≤ jsTrunc time →
      (handlePostAfterValidation d username time gameId moves stats tier cache nowMs).wrote
          = false ∧
      (handlePostAfterValidation d username time gameId moves stats tier cache nowMs).tierAfter
          = tier ∧
      (handlePostAfterValidation d username time gameId moves stats tier cache nowMs).response
          = SubmitResponse.notImproved (tier.take 20) existing.time
              ((jsFindIndex (fun r => r.username == (jsTrim username)) (tier.take 20)).map
                (fun j => j + 1))) := by
  constructor
  · intro hlt
    have hstep : handlePostAfterValidation d username time gameId moves stats tier cache nowMs
        = acceptWrite d (jsTrim username)
            (tier.set i ⟨(jsTrim username), jsTrunc time, nowMs, gameId, moves, true⟩)
            cache newStats := by
      simp only [handlePostAfterValidation, hok, hdup, hfind, if_pos hlt]
    rw [hstep]
    refine ⟨rfl, rfl, ?_⟩
    intro hlen
    have hget := (jsFindIndexRec_eq_some hfind).1
    have hib : i < tier.length := by
      by_contra hc
      rw [List.get?_eq_none.mpr (le_of_not_lt hc)] at hget
      exact Option.noConfusion hget
    have hmem := mem_set_self tier i
      (⟨(jsTrim username), jsTrunc time, nowMs, gameId, moves, true⟩ : ScoreRecord) hib
    have hmem2 : (⟨(jsTrim username), jsTrunc time, nowMs, gameId, moves, true⟩ : ScoreRecord) ∈
        sortByTime (tier.set i ⟨(jsTrim username), jsTrunc time, nowMs, gameId, moves, true⟩) :=
      ((sortByTime_perm _).mem_iff).mpr hmem
    have hlen2 : (sortByTime (tier.set i
        ⟨(jsTrim username), jsTrunc time, nowMs, gameId, moves, true⟩)).length ≤ 20 := by
      rw [(sortByTime_perm _).length_eq, List.length_set]
      exact hlen
    show (⟨(jsTrim username), jsTrunc time, nowMs, gameId, moves, true⟩ : ScoreRecord) ∈
      (sortByTime (tier.set i
        ⟨(jsTrim username), jsTrunc time, nowMs, gameId, moves, true⟩)).take 20
    rw [List.take_of_length_le hlen2]
    exact hmem2
  · intro hge
    have hstep : handlePostAfterValidation d username time gameId moves stats tier cache nowMs
        = ⟨SubmitResponse.notImproved (tier.take 20) existing.time
            ((jsFindIndex (fun r => r.username == (jsTrim username)) (tier.take 20)).map
              (fun j => j + 1)),
            tier, cache, some newStats, false⟩ := by
      simp only [handlePostAfterValidation, hok, hdup, hfind, if_neg (not_lt.2 hge)]
    rw [hstep]
    exact ⟨rfl, rfl, rfl⟩

/-- C1 witness: a user with a stored 50 s record submits 30 s and the
record is replaced; the tied/worse branch is exercised through the same
theorem at 50 s. -/
theorem c1_replace_iff_better_witness :
    ((handlePostAfterValidation Difficulty.beginner "alice" 30 "g2" 10 defaultUserStats
        [⟨"alice", 50, 0, "g1", 10, true⟩] [] 0).wrote = true ∧
      (handlePostAfterValidation Difficulty.beginner "alice" 30 "g2" 10 defaultUserStats
        [⟨"alice", 50, 0, "g1", 10, true⟩] [] 0).tierAfter =
        (sortByTime ([⟨"alice", 50, 0, "g1", 10, true⟩].set 0
          ⟨(jsTrim "alice"), jsTrunc 30, 0, "g2", 10, true⟩)).take 20) ∧
    ((handlePostAfterValidation Difficulty.beginner "alice" 50 "g2" 10 defaultUserStats
        [⟨"alice", 50, 0, "g1", 10, true⟩] [] 0).wrote = false ∧
      (handlePostAfterValidation Difficulty.beginner "alice" 50 "g2" 10 defaultUserStats
        [⟨"alice", 50, 0, "g1", 10, true⟩] [] 0).tierAfter =
        [⟨"alice", 50, 0, "g1", 10, true⟩]) := by
  have h1 := (c1_replace_iff_better Difficulty.beginner "alice" 30 "g2" 10 defaultUserStats
    ⟨1, some 30, 30, 30, some 0, 0⟩ [⟨"alice", 50, 0, "g1", 10, true⟩] [] 0 0
    ⟨"alice", 50, 0, "g1", 10, true⟩ (analyzeUserBehavior_fresh 30 0) (by decide)
    rfl).1 (by decide)
  have h2 := (c1_replace_iff_better Difficulty.beginner "alice" 50 "g2" 10 defaultUserStats
    ⟨1, some 50, 50, 50, some 0, 0⟩ [⟨"alice", 50, 0, "g1", 10, true⟩] [] 0 0
    ⟨"alice", 50, 0, "g1", 10, true⟩ (analyzeUserBehavior_fresh 50 0) (by decide)
    rfl).2 (by decide)
  exact ⟨⟨h1.1, h1.2.1⟩, ⟨h2.1, h2.2.1⟩⟩

/-- C2: after every accept-path write (given a stored tier without
duplicate usernames, which is what the accept path itself maintains) the
stored tier has at most 20 entries, is sorted non-decreasing by time both
as a `Pairwise` relation and entry-by-entry, and holds at most one record
per username. -/
theorem c2_tier_invariant (d : Difficulty) (username : String) (time : ℚ)
    (gameId : String) (moves : Int) (stats : UserStats) (tier : List ScoreRecord)
    (cache : List String) (nowMs : Int)
    (hnd : (tier.map ScoreRecord.username).Nodup)
    (hw : (handlePostAfterValidation d username time gameId moves stats tier cache nowMs).wrote
      = true) :
    (handlePostAfterValidation d username time gameId moves stats tier cache nowMs).tierAfter.length
        ≤ 20 ∧
    (handlePostAfterValidation d username time gameId moves stats tier
        cache nowMs).tierAfter.Pairwise byTime ∧
    (∀ (j : Nat) (a b : ScoreRecord),
      (handlePostAfterValidation d username time gameId moves stats tier
          cache nowMs).tierAfter.get? j = some a →
      (handlePostAfterValidation d username time gameId moves stats tier
          cache nowMs).tierAfter.get? (j + 1) = some b →
      a.time ≤ b.time) ∧
    ((handlePostAfterValidation d username time gameId moves stats tier
        cache nowMs).tierAfter.map ScoreRecord.username).Nodup := by
  obtain ⟨ns, lb, hlbnd, heq⟩ :=
    wrote_eq_acceptWrite d username time gameId moves stats tier cache nowMs hw
  rw [heq]
  have hinv := acceptWrite_invariant d (jsTrim username) lb cache ns (hlbnd hnd)
  refine ⟨hinv.1, hinv.2.1, ?_, hinv.2.2⟩
  intro j a b ha hb
  exact pairwise_get?_adjacent _ hinv.2.1 j a b ha hb

/-- C2 witness: a fresh user is appended to a one-entry tier. -/
theorem c2_tier_invariant_witness :
    (handlePostAfterValidation Difficulty.beginner "bob" 30 "g2" 10 defaultUserStats
        [⟨"alice", 50, 0, "g1", 10, true⟩] [] 0).tierAfter.length ≤ 20 ∧
    (handlePostAfterValidation Difficulty.beginner "bob" 30 "g2" 10 defaultUserStats
        [⟨"alice", 50, 0, "g1", 10, true⟩] [] 0).tierAfter.Pairwise byTime ∧
    (∀ (j : Nat) (a b : ScoreRecord),
      (handlePostAfterValidation Difficulty.beginner "bob" 30 "g2" 10 defaultUserStats
        [⟨"alice", 50, 0, "g1", 10, true⟩] [] 0).tierAfter.get? j = some a →
      (handlePostAfterValidation Difficulty.beginner "bob" 30 "g2" 10 defaultUserStats
        [⟨"alice", 50, 0, "g1", 10, true⟩] [] 0).tierAfter.get? (j + 1) = some b →
      a.time ≤ b.time) ∧
    ((handlePostAfterValidation Difficulty.beginner "bob" 30 "g2" 10 defaultUserStats
        [⟨"alice", 50, 0, "g1", 10, true⟩] [] 0).tierAfter.map ScoreRecord.username).Nodup :=
  c2_tier_invariant Difficulty.beginner "bob" 30 "g2" 10 defaultUserStats
    [⟨"alice", 50, 0, "g1", 10, true⟩] [] 0 (by decide)
    (by
      have hok := analyzeUserBehavior_fresh 30 0
      simp only [handlePostAfterValidation, hok]
      rfl)

/-- C4 counterexample: submitting the same `gameId` twice is not always
rejected: a first claim too slow for a full tier is accepted with an
accept-path write but truncated out of the stored top 20, and a second
claim with the same `gameId` and a strictly better time is then accepted
rather than rejected as a duplicate. -/
theorem c4_counterexample :
    (handlePostAfterValidation Difficulty.beginner "bob" 100 "gX" 12 defaultUserStats
        fullTier [] 0).wrote = true ∧
    (handlePostAfterValidation Difficulty.beginner "carol" 5 "gX" 12 defaultUserStats
        (handlePostAfterValidation Difficulty.beginner "bob" 100 "gX" 12 defaultUserStats
          fullTier [] 0).tierAfter
        [] 0).response ≠ SubmitResponse.duplicateGame := by
  have hok1 := analyzeUserBehavior_fresh 100 0
  have hok2 := analyzeUserBehavior_fresh 5 0
  constructor
  · simp only [handlePostAfterValidation, hok1]
    set_option maxRecDepth 100000 in rfl
  · have htier : (handlePostAfterValidation Difficulty.beginner "bob" 100 "gX" 12
        defaultUserStats fullTier [] 0).tierAfter = fullTier := by
      simp only [handlePostAfterValidation, hok1]
      set_option maxRecDepth 100000 in rfl
    rw [htier]
    simp only [handlePostAfterValidation, hok2]
    intro h
    set_option maxRecDepth 100000 in
      exact SubmitResponse.noConfusion h

/-- C4 amended: a submission whose `gameId` already appears among the
records of the stored tier is always rejected as a duplicate — whatever its
time, including strictly better ones — with the tier unchanged and no
write; but when the first submission's record did not remain in the stored
top-20 tier (it was truncated out, or the first call answered
`improved: false`), a second submission with the same `gameId` is not
detected. -/
theorem c4_amended (d : Difficulty) (username : String) (time : ℚ) (gameId : String)
    (moves : Int) (stats newStats : UserStats) (tier : List ScoreRecord)
    (cache : List String) (nowMs : Int) (r0 : ScoreRecord)
    (hok : analyzeUserBehavior stats time nowMs = BehaviorResult.ok newStats)
    (hdup : tier.find? (fun r => r.gameId == gameId) = some r0) :
    handlePostAfterValidation d username time gameId moves stats tier cache nowMs =
      ⟨SubmitResponse.duplicateGame, tier, cache, some newStats, false⟩ := by
  simp only [handlePostAfterValidation, hok, hdup]

/-- C4 witness: a duplicate `gameId` with a strictly better time (30 s
versus the stored 50 s) is rejected and nothing is written. -/
theorem c4_amended_witness :
    handlePostAfterValidation Difficulty.beginner "alice" 30 "g1" 10 defaultUserStats
        [⟨"alice", 50, 0, "g1", 10, true⟩] [] 0 =
      ⟨SubmitResponse.duplicateGame, [⟨"alice", 50, 0, "g1", 10, true⟩], [],
        some ⟨1, some 30, 30, 30, some 0, 0⟩, false⟩ :=
  c4_amended Difficulty.beginner "alice" 30 "g1" 10 defaultUserStats
    ⟨1, some 30, 30, 30, some 0, 0⟩ [⟨"alice", 50, 0, "g1", 10, true⟩] [] 0
    ⟨"alice", 50, 0, "g1", 10, true⟩ (analyzeUserBehavior_fresh 30 0) (by decide)

/-- C7: for a user with a recorded last submission, a submission inside the
5-minute cooldown increments the suspicion counter; when the incremented
counter exceeds 3 the pipeline answers with the temporary-block response
before any leaderboard write, leaving the tier unchanged and persisting no
statistics (hence no `bestTime` update); an in-cooldown submission at or
below the threshold proceeds with the counter incremented; once the
cooldown has elapsed the counter is decremented by one, floored at zero. -/
theorem c7_behavior (d : Difficulty) (username : String) (time : ℚ) (gameId : String)
    (moves : Int) (stats : UserStats) (tier : List ScoreRecord) (cache : List String)
    (nowMs l : Int)
    (hlast : stats.lastSubmission = some l) :
    ((((nowMs - l : Int) : ℚ) / 1000 < 300 →
      (3 < stats.suspiciousCount + 1 →
        handlePostAfterValidation d username time gameId moves stats tier cache nowMs =
          ⟨SubmitResponse.suspiciousBehavior, tier, cache, none, false⟩) ∧
      (stats.suspiciousCount + 1 ≤ 3 →
        analyzeUserBehavior stats time nowMs = BehaviorResult.ok
          (updateStats { stats with suspiciousCount := stats.suspiciousCount + 1 }
            time nowMs) ∧
        (updateStats { stats with suspiciousCount := stats.suspiciousCount + 1 }
            time nowMs).suspiciousCount = stats.suspiciousCount + 1)) ∧
     (¬ (((nowMs - l : Int) : ℚ) / 1000 < 300) →
      analyzeUserBehavior stats time nowMs = BehaviorResult.ok
        (updateStats { stats with suspiciousCount := jsMax0 (stats.suspiciousCount - 1) }
          time nowMs) ∧
      (updateStats { stats with suspiciousCount := jsMax0 (stats.suspiciousCount - 1) }
          time nowMs).suspiciousCount = max 0 (stats.suspiciousCount - 1))) := by
  constructor
  · intro hfr
    constructor
    · intro hblock
      have hb : analyzeUserBehavior stats time nowMs = BehaviorResult.blocked := by
        simp only [analyzeUserBehavior, hlast]
        split_ifs with h1
        · rfl
        · exact absurd (decide_eq_true hfr) h1
      simp only [handlePostAfterValidation, hb]
    · intro hle
      refine ⟨?_, rfl⟩
      simp only [analyzeUserBehavior, hlast]
      split_ifs with h1 h2
      · exact absurd h2 (not_lt.2 hle)
      · rfl
      · exact absurd (decide_eq_true hfr) h1
  · intro hnfr
    refine ⟨?_, ?_⟩
    · simp only [analyzeUserBehavior, hlast]
      split_ifs with h1 h2
      · exact absurd (of_decide_eq_true h1) hnfr
      · exact absurd (of_decide_eq_true h1) hnfr
      · rfl
    · show jsMax0 (stats.suspiciousCount - 1) = max 0 (stats.suspiciousCount - 1)
      exact jsMax0_eq_max _

/-- C7 witness: a fourth in-cooldown submission (counter already 3) is
blocked and nothing is written or persisted. -/
theorem c7_behavior_witness :
    handlePostAfterValidation Difficulty.beginner "alice" 30 "g2" 10
        ⟨5, some 40, 40, 200, some 0, 3⟩ [] [] 1000 =
      ⟨SubmitResponse.suspiciousBehavior, [], [], none, false⟩ :=
  ((c7_behavior Difficulty.beginner "alice" 30 "g2" 10
      ⟨5, some 40, 40, 200, some 0, 3⟩ [] [] 1000 0 rfl).1
    (by norm_num)).1 (by norm_num)

/-- C8: after every successful accept-path write for a difficulty tier,
both cache entries derived from the tier's logical key — the tier's own
entry `leaderboard:<difficulty>` and the store adapter's entry
`kv:leaderboard:<difficulty>` — are gone from the process-local cache in
the returned state. -/
theorem c8_cache_invalidation (d : Difficulty) (username : String) (time : ℚ)
    (gameId : String) (moves : Int) (stats : UserStats) (tier : List ScoreRecord)
    (cache : List String) (nowMs : Int)
    (hw : (handlePostAfterValidation d username time gameId moves stats tier cache nowMs).wrote
      = true) :
    ("leaderboard:" ++ difficultyKey d) ∉
      (handlePostAfterValidation d username time gameId moves stats tier cache nowMs).cacheAfter ∧
    ("kv:" ++ ("leaderboard:" ++ difficultyKey d)) ∉
      (handlePostAfterValidation d username time gameId moves stats tier
        cache nowMs).cacheAfter := by
  obtain ⟨ns, lb, -, heq⟩ :=
    wrote_eq_acceptWrite d username time gameId moves stats tier cache nowMs hw
  rw [heq, acceptWrite_cacheAfter]
  constructor
  · intro h
    exact not_mem_cacheDelete_self _ _
      (mem_of_mem_cacheDelete (mem_of_mem_cacheDelete h))
  · intro h
    exact not_mem_cacheDelete_self _ _ h

/-- C8 witness: both derived cache keys are removed by a concrete accepted
submission while an unrelated key survives only as far as the claim
requires. -/
theorem c8_cache_invalidation_witness :
    ("leaderboard:" ++ difficultyKey Difficulty.beginner) ∉
      (handlePostAfterValidation Difficulty.beginner "alice" 45 "g1" 12 defaultUserStats []
        ["leaderboard:beginner", "kv:leaderboard:beginner", "other"] 0).cacheAfter ∧
    ("kv:" ++ ("leaderboard:" ++ difficultyKey Difficulty.beginner)) ∉
      (handlePostAfterValidation Difficulty.beginner "alice" 45 "g1" 12 defaultUserStats []
        ["leaderboard:beginner", "kv:leaderboard:beginner", "other"] 0).cacheAfter :=
  c8_cache_invalidation Difficulty.beginner "alice" 45 "g1" 12 defaultUserStats []
    ["leaderboard:beginner", "kv:leaderboard:beginner", "other"] 0
    (by
      have hok := analyzeUserBehavior_fresh 45 0
      simp only [handlePostAfterValidation, hok]
      rfl)

end LGame
